import Mathlib

/-!
Verification development for the TIKTOKSHOPTOOL backend.

The two pieces of logic under scrutiny are the request signer in
`backend/app/services/tiktok_client.py` and the incremental sync engine in
`backend/app/api/sync.py`.  Python dictionaries are modelled as
insertion-ordered association lists with dict update semantics, datetimes as
epoch seconds (`Int`), raised exceptions as `Except` errors, and the upstream
HTTP collaborator as a script of responses consumed by successive fetches.
-/

namespace TikTokShopTool

deriving instance DecidableEq for Except

/-- Insertion-ordered association list modelling a Python dict with string
keys and stringified values. -/
abbrev Dict := List (String × String)

/-- Membership lookup, as `d.get(k)` on a Python dict. -/
def lookupD : Dict → String → Option String
  | [], _ => none
  | p :: ps, k => if p.1 = k then some p.2 else lookupD ps k

/-- Key removal, as `d.pop(k, None)` on a Python dict. -/
def eraseKey (d : Dict) (k : String) : Dict :=
  d.filter (fun p => decide (p.1 ≠ k))

/-- Assignment `d[k] = v` on a Python dict: overwrite in place when the key
exists, otherwise append the new entry at the end. -/
def setKey : Dict → String → String → Dict
  | [], k, v => [(k, v)]
  | p :: ps, k, v => if p.1 = k then (k, v) :: ps else p :: setKey ps k v

/-- Comparison used by Python sorted on the items of a dict: pairs are
compared lexicographically, by key first and by value on equal keys (keys of
a dict are unique, so the value leg never actually decides). -/
def pairLe (a b : String × String) : Prop :=
  a.1 < b.1 ∨ (a.1 = b.1 ∧ a.2 ≤ b.2)

instance : DecidableRel pairLe := fun a b => by
  unfold pairLe; infer_instance

/-- Step 1 of the signature algorithm, sorting the parameters. -/
def sortPairs (d : Dict) : Dict :=
  List.insertionSort pairLe d

/-- Step 2, concatenating the sorted parameters as key-value runs with no
separator, values already stringified. -/
def paramConcat (d : Dict) : String :=
  String.join ((sortPairs d).map (fun p => p.1 ++ p.2))

/-- The fields of a TikTokShopClient instance read by the signing and request
pipeline.  The HMAC-SHA256 hex digest primitive comes from the Python
standard library (hmac, hashlib), outside this repository, and is therefore
kept as an abstract function from key and message to digest. -/
structure Client where
  accessToken : String
  appKey : String
  appSecret : String
  shopCipher : String
  shopId : String
  hmacSha256Hex : String → String → String

/-- Embedding of the private signature generator of TikTokShopClient.  The
argument `timestamp` stands for the sampled current Unix time string; the
function copies the parameter dict, drops any pre-existing sign and timestamp
entries, injects the fresh timestamp, sorts and concatenates, prepends the
path, appends the body, wraps both sides with the app secret and applies
HMAC-SHA256 keyed by the app secret.  Returns the signature together with
the timestamp. -/
def generateSignature (c : Client) (path : String) (params : Dict)
    (body : String) (timestamp : String) : String × String :=
  let paramsForSign := params
  let paramsForSign := eraseKey paramsForSign "sign"
  let paramsForSign := eraseKey paramsForSign "timestamp"
  let paramsForSign := setKey paramsForSign "timestamp" timestamp
  let paramStr := paramConcat paramsForSign
  let stringToSign := path ++ paramStr ++ body
  let wrappedString := c.appSecret ++ stringToSign ++ c.appSecret
  (c.hmacSha256Hex c.appSecret wrappedString, timestamp)

/-- Modelled from the spec: the string the spec says is fed to HMAC, namely
secret, then path followed by the sorted key-value concatenation with the
timestamp included, then the body, then the secret again. -/
def specStringToSign (secret path : String) (params : Dict) (body : String)
    (ts : String) : String :=
  secret ++ (path ++ paramConcat (setKey params "timestamp" ts)) ++ body ++ secret

/-- Flat JSON values occurring in the request bodies this client builds. -/
inductive JVal where
  | jstr (s : String)
  | jint (n : Int)
deriving DecidableEq, Repr

/-- Rendering of one JSON value as json.dumps renders it; strings in these
bodies are assumed not to need escaping. -/
def JVal.dump : JVal → String
  | .jstr s => "\"" ++ s ++ "\""
  | .jint n => toString n

/-- Key comparison for the sorted-keys option of json.dumps. -/
def keyLe (p q : String × JVal) : Prop := p.1 ≤ q.1

instance : DecidableRel keyLe := fun a b => by
  unfold keyLe; infer_instance

/-- Compact serialization of a flat string-keyed JSON object with sorted
keys and separators comma and colon, as json.dumps is invoked. -/
def jsonDumps (b : List (String × JVal)) : String :=
  "\x7b" ++
    String.intercalate ","
      ((List.insertionSort keyLe b).map
        (fun p => "\"" ++ p.1 ++ "\":" ++ p.2.dump)) ++
    "\x7d"

/-- Body serialization inside the request builder: for POST, a missing body
or an empty dict becomes the literal two-character empty-object string and a
non-empty body is dumped compactly with sorted keys; GET requests contribute
the empty string to the signature. -/
def bodyStringFor (method : String) (body : Option (List (String × JVal))) :
    String :=
  if method = "POST" then
    match body with
    | none => "\x7b\x7d"
    | some [] => "\x7b\x7d"
    | some b => jsonDumps b
  else ""

/-- The outbound request assembled by the private request builder, up to the
point where the HTTP call is issued. -/
structure Request where
  method : String
  path : String
  queryParams : Dict
  headers : Dict
  bodyStr : String
  sign : String
  timestamp : String
deriving DecidableEq, Repr

/-- Embedding of the private request builder of TikTokShopClient: add the
app key to the query parameters, serialize the body, generate the signature
over path, parameters and body, then append signature and timestamp to the
query parameters, and finally the access token when one is configured. -/
def makeRequest (c : Client) (method path : String) (params : Dict)
    (body : Option (List (String × JVal))) (ts : String) : Request :=
  let params := setKey params "app_key" c.appKey
  let bodyStr := bodyStringFor method body
  let st := generateSignature c path params bodyStr ts
  let params := setKey params "sign" st.1
  let params := setKey params "timestamp" st.2
  let params :=
    if c.accessToken ≠ "" then setKey params "access_token" c.accessToken
    else params
  { method := method, path := path, queryParams := params,
    headers := [("Content-Type", "application/json"),
                ("x-tts-access-token", c.accessToken)],
    bodyStr := bodyStr, sign := st.1, timestamp := st.2 }

/-! Heap model for the aliasing behaviour of the signature generator: the
caller's dict is passed by reference, the generator allocates a private copy
and performs its pops and assignment on that copy only. -/

/-- A heap of dicts; references are indices. -/
abbrev Heap := List Dict

/-- Dereference. -/
def heapGet (h : Heap) (r : Nat) : Dict := h.getD r []

/-- Replace the dict a reference points to. -/
def heapSetDict (h : Heap) (r : Nat) (d : Dict) : Heap := h.set r d

/-- Allocation of a fresh dict, returning the extended heap and the new
reference. -/
def heapAlloc (h : Heap) (d : Dict) : Heap × Nat := (h ++ [d], h.length)

/-- In-place pop through a reference. -/
def heapPop (h : Heap) (r : Nat) (k : String) : Heap :=
  heapSetDict h r (eraseKey (heapGet h r) k)

/-- In-place assignment through a reference. -/
def heapAssign (h : Heap) (r : Nat) (k v : String) : Heap :=
  heapSetDict h r (setKey (heapGet h r) k v)

/-- The signature generator with its mutations made explicit on a heap: the
first statement copies the caller's dict into a fresh allocation and all
subsequent pops and the timestamp assignment go through the fresh
reference. -/
def generateSignatureH (c : Client) (path : String) (h : Heap)
    (paramsRef : Nat) (body : String) (timestamp : String) :
    Heap × String × String :=
  let a := heapAlloc h (heapGet h paramsRef)
  let h1 := heapPop a.1 a.2 "sign"
  let h2 := heapPop h1 a.2 "timestamp"
  let h3 := heapAssign h2 a.2 "timestamp" timestamp
  let paramStr := paramConcat (heapGet h3 a.2)
  let stringToSign := path ++ paramStr ++ body
  let wrappedString := c.appSecret ++ stringToSign ++ c.appSecret
  (h3, c.hmacSha256Hex c.appSecret wrappedString, timestamp)

/-! The sync engine. -/

/-- Exceptions the sync passes can propagate. -/
inductive PyErr where
  | attributeError
  | fetchError (msg : String)
  | transformError (msg : String)
deriving DecidableEq, Repr

/-- The order fields the sync loop reads from a transformed order dict: the
primary key and the optional creation time used for the most-recent-record
tracking. -/
structure OrderData where
  id : String
  created_at : Option Int
deriving DecidableEq, Repr

/-- The product fields the product sync loop reads from a transformed
product dict. -/
structure ProductData where
  id : String
deriving DecidableEq, Repr

/-- One orders-search response: embedded status code, message, the order
list and the continuation token, as read with chained dict gets. -/
structure OrdersPage (α : Type) where
  code : Int
  message : String
  orders : List α
  next_page_token : Option String
deriving DecidableEq, Repr

/-- One products-search response, with its has-more flag. -/
structure ProductsPage (α : Type) where
  code : Int
  message : String
  products : List α
  more : Bool
deriving DecidableEq, Repr

/-- A row of the sync_metadata table. -/
structure SyncMetadata where
  sync_type : String
  last_sync_time : Option Int
  last_record_time : Option Int
  records_synced : Int
  is_full_sync : Int
  created_at : Option Int
  updated_at : Option Int
deriving DecidableEq, Repr

/-- The relational store: orders and products keyed by their primary key,
and the sync_metadata table. -/
structure Db where
  orders : List (String × OrderData)
  products : List (String × ProductData)
  syncMeta : List SyncMetadata
deriving DecidableEq, Repr

/-- Query for the first sync_metadata row of a sync type. -/
def Db.findMeta (db : Db) (t : String) : Option SyncMetadata :=
  db.syncMeta.find? (fun m => decide (m.sync_type = t))

/-- Update the first sync_metadata row of the given type in place, or append
a freshly added row when none exists. -/
def setFirstMeta : List SyncMetadata → String → SyncMetadata →
    List SyncMetadata
  | [], _, m => [m]
  | r :: rs, t, m => if r.sync_type = t then m :: rs else r :: setFirstMeta rs t m

/-- Upsert of one transformed order by primary key: overwrite the existing
row or add a new one. -/
def upsertOrder : List (String × OrderData) → OrderData →
    List (String × OrderData)
  | [], od => [(od.id, od)]
  | r :: rs, od => if r.1 = od.id then (od.id, od) :: rs else r :: upsertOrder rs od

/-- Upsert of one transformed product by primary key. -/
def upsertProduct : List (String × ProductData) → ProductData →
    List (String × ProductData)
  | [], pd => [(pd.id, pd)]
  | r :: rs, pd => if r.1 = pd.id then (pd.id, pd) :: rs else r :: upsertProduct rs pd

/-- Python truthiness of an optional integer. -/
def optIntTruthy : Option Int → Bool
  | none => false
  | some n => decide (n ≠ 0)

/-- Python truthiness of an optional string. -/
def optStrTruthy : Option String → Bool
  | none => false
  | some s => decide (s ≠ "")

/-- The fetch-window decision at the top of the orders sync pass, producing
the start and end arguments later handed to the order fetch (the call site
already converts them with an int-of-timestamp) and the full-sync flag.
Five minutes is 300 seconds. -/
def ordersWindowArgs (db : Db) (forceFullSync : Bool) (now : Int) :
    Option Int × Option Int × Bool :=
  if forceFullSync then (none, none, true)
  else
    match db.findMeta "orders" with
    | some m =>
      match m.last_sync_time with
      | some t => (some (t - 300), some now, false)
      | none => (none, none, true)
    | none => (none, none, true)

/-- Whether the order fetch raises before reaching the network: the sync
pass hands integers to the order fetch, whose date-filter branch calls the
timestamp method on them again, which an int does not have.  The branch is
taken exactly when both window bounds are truthy. -/
def getOrdersRaises (startArg endArg : Option Int) : Bool :=
  optIntTruthy startArg && optIntTruthy endArg

/-- Arguments of one issued order fetch. -/
structure OrdersCall where
  start_arg : Option Int
  end_arg : Option Int
  page_size : Int
  page_token : Option String
deriving DecidableEq, Repr

/-- Most-recent-record tracking: a missing creation time is skipped,
otherwise the maximum is kept. -/
def updMostRecent (mr : Option Int) (createdAt : Option Int) : Option Int :=
  match createdAt with
  | none => mr
  | some t =>
    match mr with
    | none => some t
    | some m => if t > m then some t else some m

/-- Processing of the orders of one page against the session: transform each
raw order, upsert it, bump the count and track the most recent creation
time.  A transform exception aborts the page. -/
def processOrders {α : Type} (transform : α → Except PyErr OrderData) :
    List α → List (String × OrderData) → Int → Option Int →
    Except PyErr (List (String × OrderData) × Int × Option Int)
  | [], sess, count, mr => .ok (sess, count, mr)
  | raw :: rest, sess, count, mr =>
    match transform raw with
    | .error e => .error e
    | .ok od =>
      processOrders transform rest (upsertOrder sess od) (count + 1)
        (updMostRecent mr od.created_at)

/-- Python truthiness of the optional record cap. -/
def maxTruthy : Option Int → Bool
  | none => false
  | some n => decide (n ≠ 0)

/-- The pagination loop of the orders sync pass.  Each iteration first runs
the order fetch (which raises before any network traffic when the window
bounds are truthy integers), consumes the next scripted response, breaks on
a non-zero embedded code or an empty page, processes and commits the page,
and continues on a truthy continuation token unless the record cap is
reached.  Returns the committed store, the loop outcome (count and most
recent record time, or the propagated exception after rollback) and the
trace of issued fetches paired with their responses. -/
def ordersLoop {α : Type} (transform : α → Except PyErr OrderData)
    (maxOrders : Option Int) (startArg endArg : Option Int) :
    List (Except PyErr (OrdersPage α)) → Db → Int → Option Int →
    Option String →
    Db × Except PyErr (Int × Option Int) ×
      List (OrdersCall × Except PyErr (OrdersPage α))
  | [], committed, _count, _mr, _tok =>
    if getOrdersRaises startArg endArg then
      (committed, .error .attributeError, [])
    else (committed, .error (.fetchError "no upstream response"), [])
  | resp :: rest, committed, count, mr, tok =>
    if getOrdersRaises startArg endArg then
      (committed, .error .attributeError, [])
    else
      let call : OrdersCall :=
        { start_arg := startArg, end_arg := endArg, page_size := 100,
          page_token := tok }
      match resp with
      | .error e => (committed, .error e, [(call, .error e)])
      | .ok page =>
        if page.code ≠ 0 then (committed, .ok (count, mr), [(call, .ok page)])
        else if page.orders.isEmpty then
          (committed, .ok (count, mr), [(call, .ok page)])
        else
          match processOrders transform page.orders committed.orders count mr with
          | .error e => (committed, .error e, [(call, .ok page)])
          | .ok (sessOrders, count2, mr2) =>
            let committed2 : Db := { committed with orders := sessOrders }
            if optStrTruthy page.next_page_token then
              if maxTruthy maxOrders && decide (count2 ≥ maxOrders.getD 0) then
                (committed2, .ok (count2, mr2), [(call, .ok page)])
              else
                let r := ordersLoop transform maxOrders startArg endArg rest
                  committed2 count2 mr2 page.next_page_token
                (r.1, r.2.1, (call, .ok page) :: r.2.2)
            else (committed2, .ok (count2, mr2), [(call, .ok page)])

/-- The sync_metadata row written at the end of a successful pass: update of
the existing row, or a freshly added row whose column defaults fill the
creation time. -/
def updatedMeta (db : Db) (now : Int) (count : Int) (mr : Option Int)
    (isFull : Bool) : SyncMetadata :=
  match db.findMeta "orders" with
  | some m =>
    { m with last_sync_time := some now,
             last_record_time := some (mr.getD now),
             records_synced := count,
             is_full_sync := if isFull then 1 else 0,
             updated_at := some now }
  | none =>
    { sync_type := "orders", last_sync_time := some now,
      last_record_time := some (mr.getD now), records_synced := count,
      is_full_sync := if isFull then 1 else 0,
      created_at := some now, updated_at := some now }

/-- Outcome of one orders sync pass. -/
structure OrdersRun (α : Type) where
  committed : Db
  result : Except PyErr Int
  calls : List (OrdersCall × Except PyErr (OrdersPage α))
deriving Repr

/-- Embedding of the orders sync pass.  The argument `now` models the
current-time readings of the pass, `script` the sequence of upstream
responses to successive fetches, and `transform` the order transformer,
which may raise.  A propagated exception rolls the session back, leaving the
store at its last commit; normal termination writes the watermark row and
commits it. -/
def sync_orders_task {α : Type} (transform : α → Except PyErr OrderData)
    (maxOrders : Option Int) (forceFullSync : Bool) (db : Db) (now : Int)
    (script : List (Except PyErr (OrdersPage α))) : OrdersRun α :=
  let w := ordersWindowArgs db forceFullSync now
  let r := ordersLoop transform maxOrders w.1 w.2.1 script db 0 none none
  match r.2.1 with
  | .error e => { committed := r.1, result := .error e, calls := r.2.2 }
  | .ok (count, mr) =>
    let meta := updatedMeta r.1 now count mr w.2.2
    { committed := { r.1 with syncMeta := setFirstMeta r.1.syncMeta "orders" meta },
      result := .ok count, calls := r.2.2 }

/-- Arguments of one issued product fetch: the page number handed to the
product fetch and the query parameters it actually sends. -/
structure ProductsCall where
  page_number : Nat
  params : Dict
deriving DecidableEq, Repr

/-- Query parameters the product fetch sends: page size capped at one
hundred, the version, and the shop cipher and shop id when configured.  The
page number argument is accepted but never placed in the request. -/
def getProductsParams (c : Client) (pageSize : Int) (pageNumber : Nat) : Dict :=
  let params : Dict := [("page_size", toString (min pageSize 100)),
                        ("version", "202502")]
  let params :=
    if c.shopCipher ≠ "" then setKey params "shop_cipher" c.shopCipher
    else params
  let params :=
    if c.shopId ≠ "" then setKey params "shop_id" c.shopId else params
  params

/-- Processing of the products of one page against the session. -/
def processProducts {α : Type} (transform : α → Except PyErr ProductData) :
    List α → List (String × ProductData) → Int →
    Except PyErr (List (String × ProductData) × Int)
  | [], sess, count => .ok (sess, count)
  | raw :: rest, sess, count =>
    match transform raw with
    | .error e => .error e
    | .ok pd => processProducts transform rest (upsertProduct sess pd) (count + 1)

/-- The pagination loop of the products sync pass: fetch with the current
numeric page number, break on a non-zero embedded code or an empty page,
process and commit the page, and continue with the incremented page number
while the response reports more data. -/
def productsLoop {α : Type} (c : Client)
    (transform : α → Except PyErr ProductData) :
    List (Except PyErr (ProductsPage α)) → Db → Int → Nat →
    Db × Except PyErr Int × List (ProductsCall × Except PyErr (ProductsPage α))
  | [], committed, _count, _pageNumber =>
    (committed, .error (.fetchError "no upstream response"), [])
  | resp :: rest, committed, count, pageNumber =>
    let call : ProductsCall :=
      { page_number := pageNumber, params := getProductsParams c 100 pageNumber }
    match resp with
    | .error e => (committed, .error e, [(call, .error e)])
    | .ok page =>
      if page.code ≠ 0 then (committed, .ok count, [(call, .ok page)])
      else if page.products.isEmpty then
        (committed, .ok count, [(call, .ok page)])
      else
        match processProducts transform page.products committed.products count with
        | .error e => (committed, .error e, [(call, .ok page)])
        | .ok (sess, count2) =>
          let committed2 : Db := { committed with products := sess }
          if page.more then
            let r := productsLoop c transform rest committed2 count2
              (pageNumber + 1)
            (r.1, r.2.1, (call, .ok page) :: r.2.2)
          else (committed2, .ok count2, [(call, .ok page)])

/-- Outcome of one products sync pass. -/
structure ProductsRun (α : Type) where
  committed : Db
  result : Except PyErr Int
  calls : List (ProductsCall × Except PyErr (ProductsPage α))
deriving Repr

/-- Embedding of the products sync pass, which starts at page number one and
maintains no sync_metadata row. -/
def sync_products_task {α : Type} (c : Client)
    (transform : α → Except PyErr ProductData) (db : Db)
    (script : List (Except PyErr (ProductsPage α))) : ProductsRun α :=
  let r := productsLoop c transform script db 0 1
  { committed := r.1, result := r.2.1, calls := r.2.2 }

/-- Transformation of a whole page, aborting at the first failing record,
exactly as the per-record loop does before any commit. -/
def transformPage {α : Type} (transform : α → Except PyErr OrderData) :
    List α → Except PyErr (List OrderData)
  | [] => .ok []
  | a :: as =>
    match transform a with
    | .error e => .error e
    | .ok od =>
      match transformPage transform as with
      | .error e => .error e
      | .ok ods => .ok (od :: ods)

/-- Upsert of a whole transformed page into the order store. -/
def upsertAll (rows : List (String × OrderData)) (page : List OrderData) :
    List (String × OrderData) :=
  page.foldl upsertOrder rows

/-- The pages of a script the order loop fully commits before the first
fetch or transform anomaly: collection stops at a failed fetch, a non-zero
embedded code, an empty page or a failing record, and a page followed by a
falsy continuation token is the last one collected. -/
def pagesBeforeError {α : Type} (transform : α → Except PyErr OrderData) :
    List (Except PyErr (OrdersPage α)) → List (List OrderData)
  | [] => []
  | .error _ :: _ => []
  | .ok page :: rest =>
    if page.code ≠ 0 then []
    else if page.orders.isEmpty then []
    else
      match transformPage transform page.orders with
      | .error _ => []
      | .ok ods =>
        if optStrTruthy page.next_page_token then
          ods :: pagesBeforeError transform rest
        else [ods]

/-- Token chaining of a fetch trace: starting from a given token, every
issued fetch carries exactly the token state left by the previous response,
and a failed fetch ends the trace. -/
def tokenChainedFrom {α : Type} : Option String →
    List (OrdersCall × Except PyErr (OrdersPage α)) → Prop
  | _, [] => True
  | t, pr :: rest =>
    pr.1.page_token = t ∧
      match pr.2 with
      | .ok page => tokenChainedFrom page.next_page_token rest
      | .error _ => rest = []

/-- An empty store, used by concrete runs. -/
def emptyDb : Db := { orders := [], products := [], syncMeta := [] }

/-- A store holding an orders watermark at time 1000000, used by concrete
runs exercising the incremental path. -/
def exMetaDb : Db :=
  { orders := [], products := [],
    syncMeta := [{ sync_type := "orders", last_sync_time := some 1000000,
                   last_record_time := none, records_synced := 0,
                   is_full_sync := 0, created_at := none, updated_at := none }] }

/-- A one-order page ending pagination, used by concrete runs. -/
def exPageOne : OrdersPage OrderData := ⟨0, "", [⟨"o1", none⟩], none⟩

/-- A page carrying embedded status code 105, used by concrete runs. -/
def exPageErr : OrdersPage OrderData := ⟨105, "err", [], none⟩

/-- A client with no shop cipher or shop id, used by concrete runs. -/
def exClient : Client := ⟨"", "", "", "", "", fun _ _ => ""⟩

/-- Two product pages with the has-more flag set on the first, used by
concrete runs. -/
def exProductScript : List (Except PyErr (ProductsPage ProductData)) :=
  [Except.ok ⟨0, "", [⟨"p1"⟩], true⟩, Except.ok ⟨0, "", [⟨"p2"⟩], false⟩]

/-- Total number of records in a list of committed pages. -/
def recordsCount (pages : List (List OrderData)) : Int :=
  ((pages.map List.length).sum : Int)

/-- The most-recent-record tracking threaded across a list of committed
pages, starting from a given state. -/
def mostRecentFrom (mr : Option Int) (pages : List (List OrderData)) :
    Option Int :=
  pages.foldl
    (fun m ods => ods.foldl (fun m2 od => updMostRecent m2 od.created_at) m) mr

/-- Whether the order loop, entered with the given running count, fully
processes and commits every scripted response and is left asking for a
further page: each response fetches successfully with code zero, a non-empty
order list, no failing record and a truthy continuation token, and the
record cap is never reached. -/
def loopContinues {α : Type} (transform : α → Except PyErr OrderData)
    (maxOrders : Option Int) :
    List (Except PyErr (OrdersPage α)) → Int → Bool
  | [], _ => true
  | .error _ :: _, _ => false
  | .ok page :: rest, count =>
    if page.code ≠ 0 then false
    else if page.orders.isEmpty then false
    else
      match transformPage transform page.orders with
      | .error _ => false
      | .ok ods =>
        if optStrTruthy page.next_page_token then
          if maxTruthy maxOrders &&
              decide (count + (ods.length : Int) ≥ maxOrders.getD 0) then false
          else loopContinues transform maxOrders rest (count + (ods.length : Int))
        else false

/-- A one-order page continuing pagination with a token, used by concrete
runs. -/
def exPageMore : OrdersPage OrderData := ⟨0, "", [⟨"o1", none⟩], some "tok2"⟩

/-! Lemmas about the dict model. -/

theorem lookupD_eq_none_iff {d : Dict} {k : String} :
    lookupD d k = none ↔ ∀ p ∈ d, p.1 ≠ k := by
  induction d with
  | nil => simp [lookupD]
  | cons p ps ih =>
    by_cases hp : p.1 = k
    · simp [lookupD, hp]
    · simp [lookupD, hp, ih]

theorem eraseKey_of_lookup_none {d : Dict} {k : String}
    (h : lookupD d k = none) : eraseKey d k = d := by
  rw [lookupD_eq_none_iff] at h
  unfold eraseKey
  rw [List.filter_eq_self]
  intro a ha
  simpa using h a ha

theorem lookupD_eraseKey_self (d : Dict) (k : String) :
    lookupD (eraseKey d k) k = none := by
  rw [lookupD_eq_none_iff]
  intro p hp
  simpa using List.of_mem_filter hp

theorem lookupD_eraseKey_ne (d : Dict) {k k2 : String} (h : k2 ≠ k) :
    lookupD (eraseKey d k) k2 = lookupD d k2 := by
  have hkk : ¬ k = k2 := fun hEq => h hEq.symm
  induction d with
  | nil => rfl
  | cons p ps ih =>
    by_cases hp : p.1 = k
    · have hp2 : ¬ p.1 = k2 := by rw [hp]; exact hkk
      simp [eraseKey, List.filter_cons, hp, lookupD, hp2, hkk, ← ih]
    · by_cases hq : p.1 = k2
      · simp [eraseKey, List.filter_cons, hp, lookupD, hq, h]
      · simp [eraseKey, List.filter_cons, hp, lookupD, hq, h, ← ih]

theorem lookupD_setKey_self (d : Dict) (k v : String) :
    lookupD (setKey d k v) k = some v := by
  induction d with
  | nil => simp [setKey, lookupD]
  | cons p ps ih =>
    by_cases hp : p.1 = k
    · simp [setKey, hp, lookupD]
    · simpa [setKey, hp, lookupD] using ih

theorem lookupD_setKey_ne (d : Dict) {k k2 : String} (v : String) (h : k2 ≠ k) :
    lookupD (setKey d k v) k2 = lookupD d k2 := by
  have hkk : ¬ k = k2 := fun hEq => h hEq.symm
  induction d with
  | nil => simp [setKey, lookupD, hkk]
  | cons p ps ih =>
    by_cases hp : p.1 = k
    · have hp2 : ¬ p.1 = k2 := by rw [hp]; exact hkk
      simp [setKey, hp, lookupD, hp2, hkk]
    · by_cases hq : p.1 = k2
      · simp [setKey, hp, lookupD, hq, h]
      · simpa [setKey, hp, lookupD, hq, h] using ih

theorem setKey_of_lookup_none {d : Dict} {k : String} (v : String)
    (h : lookupD d k = none) : setKey d k v = d ++ [(k, v)] := by
  induction d with
  | nil => rfl
  | cons p ps ih =>
    rw [lookupD_eq_none_iff] at h
    have hp : ¬ p.1 = k := h p (List.mem_cons_self p ps)
    simp only [setKey, hp, if_false, List.cons_append]
    rw [ih]
    rw [lookupD_eq_none_iff]
    intro q hq
    exact h q (List.mem_cons_of_mem p hq)

instance : IsTotal (String × String) pairLe :=
  ⟨by
    intro a b
    unfold pairLe
    rcases lt_trichotomy a.1 b.1 with h | h | h
    · exact Or.inl (Or.inl h)
    · rcases le_total a.2 b.2 with h2 | h2
      · exact Or.inl (Or.inr ⟨h, h2⟩)
      · exact Or.inr (Or.inr ⟨h.symm, h2⟩)
    · exact Or.inr (Or.inl h)⟩

instance : IsTrans (String × String) pairLe :=
  ⟨by
    intro a b c hab hbc
    unfold pairLe at hab hbc ⊢
    rcases hab with h1 | ⟨h1, v1⟩
    · rcases hbc with h2 | ⟨h2, v2⟩
      · exact Or.inl (lt_trans h1 h2)
      · exact Or.inl (h2 ▸ h1)
    · rcases hbc with h2 | ⟨h2, v2⟩
      · exact Or.inl (h1.symm ▸ h2)
      · exact Or.inr ⟨h1.trans h2, v1.trans v2⟩⟩

instance : IsAntisymm (String × String) pairLe :=
  ⟨by
    intro a b hab hba
    unfold pairLe at hab hba
    rcases hab with h1 | ⟨h1, v1⟩
    · rcases hba with h2 | ⟨h2, v2⟩
      · exact absurd (lt_trans h1 h2) (lt_irrefl _)
      · exact absurd (h2 ▸ h1) (lt_irrefl _)
    · rcases hba with h2 | ⟨h2, v2⟩
      · exact absurd (h1 ▸ h2) (lt_irrefl _)
      · exact Prod.ext h1 (le_antisymm v1 v2)⟩

theorem sortPairs_congr {d1 d2 : Dict} (h : d1.Perm d2) :
    sortPairs d1 = sortPairs d2 :=
  List.eq_of_perm_of_sorted
    ((List.perm_insertionSort pairLe d1).trans
      (h.trans (List.perm_insertionSort pairLe d2).symm))
    (List.sorted_insertionSort pairLe d1)
    (List.sorted_insertionSort pairLe d2)

/-! Claims about the request signer. -/

/-- C2: for every path, parameter mapping (one not already carrying a sign
or timestamp entry, per the documented contract of the signer) and body
string, the signature equals the hex HMAC-SHA256 keyed by the app secret
over secret, then path plus the sorted key-value concatenation with the
timestamp included, then the body, then the secret again. -/
theorem generateSignature_matches_spec (c : Client) (path : String)
    (params : Dict) (body ts : String)
    (hs : lookupD params "sign" = none)
    (ht : lookupD params "timestamp" = none) :
    (generateSignature c path params body ts).1 =
      c.hmacSha256Hex c.appSecret
        (specStringToSign c.appSecret path params body ts) := by
  simp only [generateSignature, specStringToSign]
  rw [eraseKey_of_lookup_none hs, eraseKey_of_lookup_none ht]
  congr 1
  simp [String.append_assoc]

/-- Witness for C2 at one concrete input. -/
theorem generateSignature_matches_spec_witness :
    lookupD [("b", "2"), ("a", "1")] "sign" = none ∧
    lookupD [("b", "2"), ("a", "1")] "timestamp" = none ∧
    (generateSignature ⟨"tok", "key", "sec", "", "", fun k m => k ++ "#" ++ m⟩
        "/p" [("b", "2"), ("a", "1")] "BODY" "77").1 =
      (fun k m => k ++ "#" ++ m) "sec"
        (specStringToSign "sec" "/p" [("b", "2"), ("a", "1")] "BODY" "77") :=
  ⟨by decide, by decide,
    generateSignature_matches_spec ⟨"tok", "key", "sec", "", "", fun k m => k ++ "#" ++ m⟩
      "/p" [("b", "2"), ("a", "1")] "BODY" "77" (by decide) (by decide)⟩

/-- C3: a POST with a missing body and a POST with an empty dict body are
both signed over the literal two-character empty-object string, which is not
the empty string, and produce identical signatures. -/
theorem post_empty_body_signature (c : Client) (path : String) (params : Dict)
    (ts : String) :
    (makeRequest c "POST" path params none ts).bodyStr = "\x7b\x7d" ∧
    (makeRequest c "POST" path params (some []) ts).bodyStr = "\x7b\x7d" ∧
    ("\x7b\x7d" : String) ≠ "" ∧
    (makeRequest c "POST" path params none ts).sign =
      (makeRequest c "POST" path params (some []) ts).sign := by
  refine ⟨rfl, rfl, by decide, rfl⟩

/-- C4: the signature is invariant under the insertion order of the
parameter mapping. -/
theorem signature_insertion_order_invariant (c : Client) (path body ts : String)
    (p1 p2 : Dict) (hperm : p1.Perm p2) :
    generateSignature c path p1 body ts = generateSignature c path p2 body ts := by
  have h1 : (eraseKey (eraseKey p1 "sign") "timestamp").Perm
      (eraseKey (eraseKey p2 "sign") "timestamp") :=
    ((hperm.filter _).filter _)
  have h2 : (setKey (eraseKey (eraseKey p1 "sign") "timestamp") "timestamp" ts).Perm
      (setKey (eraseKey (eraseKey p2 "sign") "timestamp") "timestamp" ts) := by
    rw [setKey_of_lookup_none ts (lookupD_eraseKey_self _ _),
        setKey_of_lookup_none ts (lookupD_eraseKey_self _ _)]
    exact h1.append_right _
  simp only [generateSignature, paramConcat]
  rw [sortPairs_congr h2]

/-- Witness for C4 at one concrete pair of reordered mappings. -/
theorem signature_insertion_order_invariant_witness :
    ([("b", "2"), ("a", "1")] : Dict).Perm [("a", "1"), ("b", "2")] ∧
    generateSignature ⟨"tok", "key", "sec", "", "", fun k m => k ++ "#" ++ m⟩
        "/p" [("b", "2"), ("a", "1")] "BODY" "77" =
      generateSignature ⟨"tok", "key", "sec", "", "", fun k m => k ++ "#" ++ m⟩
        "/p" [("a", "1"), ("b", "2")] "BODY" "77" :=
  ⟨by decide,
    signature_insertion_order_invariant
      ⟨"tok", "key", "sec", "", "", fun k m => k ++ "#" ++ m⟩
      "/p" "BODY" "77" [("b", "2"), ("a", "1")] [("a", "1"), ("b", "2")] (by decide)⟩

/-- C5: the signature of a built request is computed over the parameter set
with the app key added, any pre-existing sign and timestamp entries removed
and the fresh timestamp injected; that signed set carries neither a sign nor
a timestamp entry from the caller nor the access token, and the outgoing
query string carries the computed signature, the timestamp and the access
token afterwards. -/
theorem make_request_signed_set (c : Client) (method path : String)
    (params : Dict) (body : Option (List (String × JVal))) (ts : String)
    (hA : lookupD params "access_token" = none) (hT : c.accessToken ≠ "") :
    (makeRequest c method path params body ts).sign =
      c.hmacSha256Hex c.appSecret
        (c.appSecret ++
          (path ++
            paramConcat (setKey (eraseKey (eraseKey
              (setKey params "app_key" c.appKey) "sign") "timestamp")
              "timestamp" ts) ++
            (makeRequest c method path params body ts).bodyStr) ++
          c.appSecret) ∧
    lookupD (eraseKey (eraseKey (setKey params "app_key" c.appKey) "sign")
      "timestamp") "sign" = none ∧
    lookupD (eraseKey (eraseKey (setKey params "app_key" c.appKey) "sign")
      "timestamp") "timestamp" = none ∧
    lookupD (setKey (eraseKey (eraseKey (setKey params "app_key" c.appKey)
      "sign") "timestamp") "timestamp" ts) "access_token" = none ∧
    lookupD (makeRequest c method path params body ts).queryParams "sign" =
      some (makeRequest c method path params body ts).sign ∧
    lookupD (makeRequest c method path params body ts).queryParams "timestamp" =
      some ts ∧
    lookupD (makeRequest c method path params body ts).queryParams
      "access_token" = some c.accessToken := by
  refine ⟨rfl, ?_, ?_, ?_, ?_, ?_, ?_⟩
  · rw [lookupD_eraseKey_ne _ (by decide), lookupD_eraseKey_self]
  · exact lookupD_eraseKey_self _ _
  · rw [lookupD_setKey_ne _ _ (by decide),
        lookupD_eraseKey_ne _ (by decide), lookupD_eraseKey_ne _ (by decide),
        lookupD_setKey_ne _ _ (by decide)]
    exact hA
  · simp only [makeRequest, if_pos hT]
    rw [lookupD_setKey_ne _ _ (by decide),
        lookupD_setKey_ne _ _ (by decide), lookupD_setKey_self]
  · simp only [makeRequest, if_pos hT]
    rw [lookupD_setKey_ne _ _ (by decide), lookupD_setKey_self]
    simp [generateSignature]
  · simp only [makeRequest, if_pos hT]
    rw [lookupD_setKey_self]

/-- Witness for C5 at one concrete request. -/
theorem make_request_signed_set_witness :
    lookupD [("b", "2")] "access_token" = none ∧
    ("tok" : String) ≠ "" ∧
    lookupD (makeRequest ⟨"tok", "key", "sec", "", "", fun k m => k ++ "#" ++ m⟩
      "POST" "/p" [("b", "2")] none "77").queryParams "access_token" =
      some "tok" :=
  ⟨by decide, by decide,
    (make_request_signed_set ⟨"tok", "key", "sec", "", "", fun k m => k ++ "#" ++ m⟩
      "POST" "/p" [("b", "2")] none "77" (by decide) (by decide)).2.2.2.2.2.2⟩

/-! Heap lemmas for the aliasing claim. -/

theorem getD_set_ne {l : Heap} {i j : Nat} (hne : i ≠ j) (a : Dict) :
    (l.set i a).getD j [] = l.getD j [] := by
  rw [List.getD_eq_getElem?_getD, List.getD_eq_getElem?_getD,
      List.getElem?_set_ne hne]

/-- C10: the signature generator does not modify the caller's parameter
dict; after the call the reference passed in still holds exactly the entries
it held before, since the pops and the timestamp assignment go through the
freshly allocated copy. -/
theorem generateSignatureH_frame (c : Client) (path : String) (h : Heap)
    (r : Nat) (body ts : String) (hr : r < h.length) :
    heapGet (generateSignatureH c path h r body ts).1 r = heapGet h r := by
  have hne : h.length ≠ r := fun hEq => absurd (hEq ▸ hr) (lt_irrefl _)
  simp only [generateSignatureH, heapAlloc, heapPop, heapAssign, heapSetDict,
    heapGet]
  rw [getD_set_ne hne, getD_set_ne hne, getD_set_ne hne,
      List.getD_append _ _ _ _ hr]

/-- Witness for C10 at one concrete heap. -/
theorem generateSignatureH_frame_witness :
    0 < ([[("a", "1")]] : Heap).length ∧
    heapGet (generateSignatureH ⟨"tok", "key", "sec", "", "", fun k m => k ++ "#" ++ m⟩
      "/p" [[("a", "1")]] 0 "BODY" "77").1 0 = heapGet [[("a", "1")]] 0 :=
  ⟨by decide,
    generateSignatureH_frame ⟨"tok", "key", "sec", "", "", fun k m => k ++ "#" ++ m⟩
      "/p" [[("a", "1")]] 0 "BODY" "77" (by decide)⟩

/-! Lemmas about the sync engine. -/

theorem findMeta_sync_type {db : Db} {t : String} {m : SyncMetadata}
    (h : db.findMeta t = some m) : m.sync_type = t := by
  unfold Db.findMeta at h
  simpa using List.find?_some h

theorem find?_setFirstMeta (rows : List SyncMetadata) {t : String}
    {m : SyncMetadata} (hm : m.sync_type = t) :
    List.find? (fun r => decide (r.sync_type = t)) (setFirstMeta rows t m) =
      some m := by
  induction rows with
  | nil => simp [setFirstMeta, List.find?_cons, hm]
  | cons r rs ih =>
    by_cases hr : r.sync_type = t
    · simp [setFirstMeta, hr, List.find?_cons, hm]
    · simp [setFirstMeta, hr, List.find?_cons, ih]

theorem updatedMeta_sync_type (db : Db) (now count : Int) (mr : Option Int)
    (isFull : Bool) : (updatedMeta db now count mr isFull).sync_type = "orders" := by
  unfold updatedMeta
  cases h : db.findMeta "orders" with
  | none => rfl
  | some m => simpa using findMeta_sync_type h

theorem updatedMeta_last_sync_time (db : Db) (now count : Int)
    (mr : Option Int) (isFull : Bool) :
    (updatedMeta db now count mr isFull).last_sync_time = some now := by
  unfold updatedMeta
  cases db.findMeta "orders" <;> rfl

theorem ordersLoop_raises {α : Type} (transform : α → Except PyErr OrderData)
    (maxOrders : Option Int) {startArg endArg : Option Int}
    (hw : getOrdersRaises startArg endArg = true)
    (script : List (Except PyErr (OrdersPage α))) (committed : Db)
    (count : Int) (mr : Option Int) (tok : Option String) :
    ordersLoop transform maxOrders startArg endArg script committed count mr tok =
      (committed, .error .attributeError, []) := by
  cases script <;> simp [ordersLoop, hw]

theorem ordersLoop_frame {α : Type} (transform : α → Except PyErr OrderData)
    (maxOrders : Option Int) (startArg endArg : Option Int) :
    ∀ (script : List (Except PyErr (OrdersPage α))) (committed : Db)
      (count : Int) (mr : Option Int) (tok : Option String),
      (ordersLoop transform maxOrders startArg endArg script committed count mr
          tok).1.syncMeta = committed.syncMeta ∧
      (ordersLoop transform maxOrders startArg endArg script committed count mr
          tok).1.products = committed.products := by
  intro script
  induction script with
  | nil =>
    intro committed count mr tok
    simp only [ordersLoop]
    split <;> exact ⟨rfl, rfl⟩
  | cons resp rest ih =>
    intro committed count mr tok
    simp only [ordersLoop]
    repeat' split
    all_goals first
      | exact ⟨rfl, rfl⟩
      | exact ih _ _ _ _

theorem processOrders_eq {α : Type} (transform : α → Except PyErr OrderData) :
    ∀ (raws : List α) (sess : List (String × OrderData)) (count : Int)
      (mr : Option Int),
      processOrders transform raws sess count mr =
        (match transformPage transform raws with
         | .error e => .error e
         | .ok ods =>
           .ok (upsertAll sess ods, count + ods.length,
                ods.foldl (fun m od => updMostRecent m od.created_at) mr)) := by
  intro raws
  induction raws with
  | nil =>
    intro sess count mr
    simp [processOrders, transformPage, upsertAll]
  | cons raw rest ih =>
    intro sess count mr
    cases htr : transform raw with
    | error e => simp [processOrders, transformPage, htr]
    | ok od =>
      cases htp : transformPage transform rest with
      | error e => simp [processOrders, transformPage, htr, htp, ih]
      | ok ods =>
        simp only [processOrders, transformPage, htr, htp, ih, upsertAll,
          List.foldl_cons, List.length_cons, Except.ok.injEq, Prod.mk.injEq,
          Nat.cast_add, Nat.cast_one]
        exact ⟨trivial, by ring, trivial⟩

theorem ordersLoop_error_orders {α : Type}
    (transform : α → Except PyErr OrderData) (maxOrders : Option Int)
    {startArg endArg : Option Int}
    (hw : getOrdersRaises startArg endArg = false) :
    ∀ (script : List (Except PyErr (OrdersPage α))) (committed : Db)
      (count : Int) (mr : Option Int) (tok : Option String) (e : PyErr),
      (ordersLoop transform maxOrders startArg endArg script committed count mr
          tok).2.1 = .error e →
      (ordersLoop transform maxOrders startArg endArg script committed count mr
          tok).1.orders =
        (pagesBeforeError transform script).foldl upsertAll committed.orders := by
  intro script
  induction script with
  | nil =>
    intro committed count mr tok e _herr
    simp [ordersLoop, hw, pagesBeforeError]
  | cons resp rest ih =>
    intro committed count mr tok e herr
    simp only [ordersLoop, hw, Bool.false_eq_true, if_false] at herr ⊢
    cases resp with
    | error e2 => simp [pagesBeforeError]
    | ok page =>
      by_cases hc : page.code ≠ 0
      · simp [hc] at herr
      · by_cases hempty : page.orders.isEmpty
        · simp [hc, hempty] at herr
        · simp only [hc, hempty, if_false, Bool.false_eq_true] at herr ⊢
          cases hproc : processOrders transform page.orders committed.orders count mr with
          | error e3 =>
            have hpe := processOrders_eq transform page.orders committed.orders count mr
            rw [hproc] at hpe
            cases htp : transformPage transform page.orders with
            | error e4 =>
              simp [hproc, pagesBeforeError, hc, hempty, htp]
            | ok ods => rw [htp] at hpe; simp at hpe
          | ok triple =>
            obtain ⟨sess, count2, mr2⟩ := triple
            have hpe := processOrders_eq transform page.orders committed.orders count mr
            rw [hproc] at hpe
            cases htp : transformPage transform page.orders with
            | error e4 => rw [htp] at hpe; simp at hpe
            | ok ods =>
              rw [htp] at hpe
              simp only [Except.ok.injEq, Prod.mk.injEq] at hpe
              obtain ⟨hsess, _hcount, _hmr⟩ := hpe
              by_cases hts : optStrTruthy page.next_page_token
              · by_cases hmax : (maxTruthy maxOrders &&
                    decide (count2 ≥ maxOrders.getD 0)) = true
                · simp [hproc, hts, hmax] at herr
                · simp only [hproc, hts, hmax, if_true, if_false,
                    Bool.false_eq_true] at herr ⊢
                  rw [ih _ _ _ _ _ herr]
                  simp [pagesBeforeError, hc, hempty, htp, hts, hsess]
              · simp [hproc, hts] at herr

theorem ordersLoop_chained {α : Type} (transform : α → Except PyErr OrderData)
    (maxOrders : Option Int) (startArg endArg : Option Int) :
    ∀ (script : List (Except PyErr (OrdersPage α))) (committed : Db)
      (count : Int) (mr : Option Int) (tok : Option String),
      tokenChainedFrom tok
        (ordersLoop transform maxOrders startArg endArg script committed count
          mr tok).2.2 := by
  intro script
  induction script with
  | nil =>
    intro committed count mr tok
    simp only [ordersLoop]
    split <;> trivial
  | cons resp rest ih =>
    intro committed count mr tok
    simp only [ordersLoop]
    repeat' split
    all_goals first
      | trivial
      | exact ⟨rfl, trivial⟩
      | exact ⟨rfl, rfl⟩
      | exact ⟨rfl, ih _ _ _ _⟩

theorem sync_orders_ok_findMeta {α : Type}
    (transform : α → Except PyErr OrderData) (maxOrders : Option Int)
    (forceFullSync : Bool) (db : Db) (now : Int)
    (script : List (Except PyErr (OrdersPage α))) (n : Int)
    (h : (sync_orders_task transform maxOrders forceFullSync db now
        script).result = Except.ok n) :
    ∃ m, (sync_orders_task transform maxOrders forceFullSync db now
        script).committed.findMeta "orders" = some m ∧
      m.last_sync_time = some now := by
  simp only [sync_orders_task] at h ⊢
  cases hl : (ordersLoop transform maxOrders
      (ordersWindowArgs db forceFullSync now).1
      (ordersWindowArgs db forceFullSync now).2.1 script db 0 none none).2.1 with
  | error e => rw [hl] at h; simp at h
  | ok cm =>
    obtain ⟨count, mr⟩ := cm
    exact ⟨updatedMeta (ordersLoop transform maxOrders
        (ordersWindowArgs db forceFullSync now).1
        (ordersWindowArgs db forceFullSync now).2.1 script db 0 none none).1
        now count mr (ordersWindowArgs db forceFullSync now).2.2,
      find?_setFirstMeta _ (updatedMeta_sync_type _ _ _ _ _),
      updatedMeta_last_sync_time _ _ _ _ _⟩

theorem productsLoop_pageNumbers {α : Type} (c : Client)
    (transform : α → Except PyErr ProductData) :
    ∀ (script : List (Except PyErr (ProductsPage α))) (committed : Db)
      (count : Int) (pn : Nat),
      ((productsLoop c transform script committed count pn).2.2.map
          (fun pc => pc.1.page_number)) =
        List.range' pn
          (productsLoop c transform script committed count pn).2.2.length := by
  intro script
  induction script with
  | nil => intro committed count pn; rfl
  | cons resp rest ih =>
    intro committed count pn
    simp only [productsLoop]
    repeat' split
    all_goals simp [List.range', ih]

theorem getProductsParams_no_pagination (c : Client) (pageSize : Int)
    (pn : Nat) :
    lookupD (getProductsParams c pageSize pn) "page_token" = none ∧
    lookupD (getProductsParams c pageSize pn) "page_number" = none := by
  unfold getProductsParams
  constructor <;> split_ifs <;>
    (repeat rw [lookupD_setKey_ne _ _ (by decide)]) <;> rfl

theorem productsLoop_params_clean {α : Type} (c : Client)
    (transform : α → Except PyErr ProductData) :
    ∀ (script : List (Except PyErr (ProductsPage α))) (committed : Db)
      (count : Int) (pn : Nat),
      ∀ pc ∈ (productsLoop c transform script committed count pn).2.2,
        lookupD pc.1.params "page_token" = none ∧
        lookupD pc.1.params "page_number" = none := by
  intro script
  induction script with
  | nil =>
    intro committed count pn pc hpc
    simp [productsLoop] at hpc
  | cons resp rest ih =>
    intro committed count pn pc hpc
    cases resp with
    | error e =>
      simp [productsLoop] at hpc
      subst hpc
      exact getProductsParams_no_pagination c 100 pn
    | ok page =>
      by_cases hc : page.code ≠ 0
      · simp [productsLoop, hc] at hpc
        subst hpc
        exact getProductsParams_no_pagination c 100 pn
      · by_cases hemp : page.products.isEmpty
        · simp [productsLoop, hc, hemp] at hpc
          subst hpc
          exact getProductsParams_no_pagination c 100 pn
        · cases hproc : processProducts transform page.products
              committed.products count with
          | error e2 =>
            simp [productsLoop, hc, hemp, hproc] at hpc
            subst hpc
            exact getProductsParams_no_pagination c 100 pn
          | ok pr =>
            obtain ⟨sess, count2⟩ := pr
            by_cases hmore : page.more
            · simp [productsLoop, hc, hemp, hproc, hmore] at hpc
              rcases hpc with h | h
              · subst h
                exact getProductsParams_no_pagination c 100 pn
              · exact ih _ _ _ _ h
            · simp [productsLoop, hc, hemp, hproc, hmore] at hpc
              subst hpc
              exact getProductsParams_no_pagination c 100 pn

theorem recordsCount_cons (ods : List OrderData)
    (ps : List (List OrderData)) :
    recordsCount (ods :: ps) = (ods.length : Int) + recordsCount ps := by
  simp [recordsCount]

theorem updatedMeta_records_synced (db : Db) (now count : Int)
    (mr : Option Int) (isFull : Bool) :
    (updatedMeta db now count mr isFull).records_synced = count := by
  unfold updatedMeta
  cases db.findMeta "orders" <;> rfl

theorem updatedMeta_congr {db1 db2 : Db} (now count : Int) (mr : Option Int)
    (isFull : Bool) (h : db1.findMeta "orders" = db2.findMeta "orders") :
    updatedMeta db1 now count mr isFull = updatedMeta db2 now count mr isFull := by
  unfold updatedMeta
  rw [h]

theorem ordersLoop_good_prefix {α : Type}
    (transform : α → Except PyErr OrderData) (maxOrders : Option Int)
    {startArg endArg : Option Int}
    (hw : getOrdersRaises startArg endArg = false) (page : OrdersPage α)
    (hc : page.code ≠ 0) :
    ∀ (script1 rest : List (Except PyErr (OrdersPage α))) (committed : Db)
      (count : Int) (mr : Option Int) (tok : Option String),
      loopContinues transform maxOrders script1 count = true →
      (ordersLoop transform maxOrders startArg endArg
          (script1 ++ Except.ok page :: rest) committed count mr tok).2.1 =
        Except.ok (count + recordsCount (pagesBeforeError transform script1),
          mostRecentFrom mr (pagesBeforeError transform script1)) ∧
      (ordersLoop transform maxOrders startArg endArg
          (script1 ++ Except.ok page :: rest) committed count mr tok).1.orders =
        (pagesBeforeError transform script1).foldl upsertAll
          committed.orders ∧
      (ordersLoop transform maxOrders startArg endArg
          (script1 ++ Except.ok page :: rest) committed count mr
          tok).2.2.length = script1.length + 1 := by
  intro script1
  induction script1 with
  | nil =>
    intro rest committed count mr tok _hg
    simp [ordersLoop, hw, hc, pagesBeforeError, recordsCount, mostRecentFrom]
  | cons resp s1 ih =>
    intro rest committed count mr tok hg
    cases resp with
    | error e => simp [loopContinues] at hg
    | ok p1 =>
      by_cases hc1 : p1.code ≠ 0
      · simp [loopContinues, hc1] at hg
      · by_cases hemp : p1.orders.isEmpty
        · simp [loopContinues, hc1, hemp] at hg
        · cases htp : transformPage transform p1.orders with
          | error e2 => simp [loopContinues, hc1, hemp, htp] at hg
          | ok ods =>
            by_cases hts : optStrTruthy p1.next_page_token
            · by_cases hmax : (maxTruthy maxOrders &&
                  decide (count + (ods.length : Int) ≥ maxOrders.getD 0)) = true
              · simp [loopContinues, hc1, hemp, htp, hts, hmax] at hg
              · have hg2 : loopContinues transform maxOrders s1
                    (count + (ods.length : Int)) = true := by
                  simpa [loopContinues, hc1, hemp, htp, hts, hmax] using hg
                have hproc : processOrders transform p1.orders committed.orders
                    count mr =
                    Except.ok (upsertAll committed.orders ods,
                      count + (ods.length : Int),
                      ods.foldl (fun m od => updMostRecent m od.created_at) mr) := by
                  rw [processOrders_eq, htp]
                have hpages : pagesBeforeError transform (Except.ok p1 :: s1) =
                    ods :: pagesBeforeError transform s1 := by
                  simp [pagesBeforeError, hc1, hemp, htp, hts]
                obtain ⟨ihr, iho, ihl⟩ := ih rest
                  { committed with orders := upsertAll committed.orders ods }
                  (count + (ods.length : Int))
                  (ods.foldl (fun m od => updMostRecent m od.created_at) mr)
                  p1.next_page_token hg2
                rw [List.cons_append]
                simp only [ordersLoop, hw, Bool.false_eq_true, if_false, hc1,
                  hemp, hproc, hts, hmax, if_true]
                refine ⟨?_, ?_, ?_⟩
                · rw [hpages, recordsCount_cons, ← add_assoc]
                  exact ihr
                · rw [hpages, List.foldl_cons]
                  exact iho
                · simp [ihl]
            · simp [loopContinues, hc1, hemp, htp, hts] at hg

/-! Claims about the sync engine. -/

/-- C1: when a sync pass over orders propagates a fetch or transform error,
the sync_metadata table, and in particular the orders watermark row, is left
exactly as before the pass, while the order store holds precisely the pages
fully committed before the anomaly (the prior contents plus the upserts of
those pages). -/
theorem sync_error_preserves_watermark {α : Type}
    (transform : α → Except PyErr OrderData) (maxOrders : Option Int)
    (forceFullSync : Bool) (db : Db) (now : Int)
    (script : List (Except PyErr (OrdersPage α))) (e : PyErr)
    (herr : (sync_orders_task transform maxOrders forceFullSync db now
        script).result = Except.error e) :
    (sync_orders_task transform maxOrders forceFullSync db now
        script).committed.syncMeta = db.syncMeta ∧
    (sync_orders_task transform maxOrders forceFullSync db now
        script).committed.findMeta "orders" = db.findMeta "orders" ∧
    (sync_orders_task transform maxOrders forceFullSync db now
        script).committed.orders =
      (if getOrdersRaises (ordersWindowArgs db forceFullSync now).1
          (ordersWindowArgs db forceFullSync now).2.1 = true
       then db.orders
       else (pagesBeforeError transform script).foldl upsertAll db.orders) := by
  simp only [sync_orders_task] at herr ⊢
  cases hl : (ordersLoop transform maxOrders
      (ordersWindowArgs db forceFullSync now).1
      (ordersWindowArgs db forceFullSync now).2.1 script db 0 none none).2.1 with
  | ok cm =>
    obtain ⟨count, mr⟩ := cm
    rw [hl] at herr
    simp at herr
  | error e2 =>
    rw [hl] at herr
    refine ⟨(ordersLoop_frame transform maxOrders _ _ script db 0 none none).1,
      ?_, ?_⟩
    · unfold Db.findMeta
      rw [(ordersLoop_frame transform maxOrders _ _ script db 0 none none).1]
    · by_cases hw : getOrdersRaises (ordersWindowArgs db forceFullSync now).1
          (ordersWindowArgs db forceFullSync now).2.1 = true
      · rw [if_pos hw,
          ordersLoop_raises transform maxOrders hw script db 0 none none]
      · have hw2 : getOrdersRaises (ordersWindowArgs db forceFullSync now).1
            (ordersWindowArgs db forceFullSync now).2.1 = false :=
          Bool.eq_false_iff.mpr hw
        rw [if_neg hw]
        exact ordersLoop_error_orders transform maxOrders hw2 script db 0
          none none e2 hl

/-- Witness for C1 at one concrete failing pass. -/
theorem sync_error_preserves_watermark_witness :
    (sync_orders_task (fun od : OrderData => Except.ok od) none false emptyDb 5
        [Except.error (PyErr.fetchError "boom")]).result =
      Except.error (PyErr.fetchError "boom") ∧
    (sync_orders_task (fun od : OrderData => Except.ok od) none false emptyDb 5
        [Except.error (PyErr.fetchError "boom")]).committed.syncMeta =
      emptyDb.syncMeta :=
  ⟨by decide,
    (sync_error_preserves_watermark (fun od : OrderData => Except.ok od) none
      false emptyDb 5 [Except.error (PyErr.fetchError "boom")]
      (PyErr.fetchError "boom") (by decide)).1⟩

/-- C6 (observed divergence): with a prior watermark at time 1000000 and the
current time 2000000, the non-forced pass does compute the window start
999700, namely five minutes before the watermark, but it then propagates
AttributeError without issuing any upstream fetch and leaves the store
untouched, because the pass hands an integer timestamp to the order fetch,
whose date-filter branch calls the timestamp method on it again. -/
theorem incremental_pass_attribute_error :
    ordersWindowArgs exMetaDb false 2000000 =
      (some 999700, some 2000000, false) ∧
    (sync_orders_task (fun od : OrderData => Except.ok od) none false exMetaDb
        2000000 ([] : List (Except PyErr (OrdersPage OrderData)))).result =
      Except.error PyErr.attributeError ∧
    (sync_orders_task (fun od : OrderData => Except.ok od) none false exMetaDb
        2000000 ([] : List (Except PyErr (OrdersPage OrderData)))).calls = [] ∧
    (sync_orders_task (fun od : OrderData => Except.ok od) none false exMetaDb
        2000000 ([] : List (Except PyErr (OrdersPage OrderData)))).committed =
      exMetaDb :=
  ⟨by decide, by decide, by decide, by decide⟩

/-- C7: after a successful first pass, a second non-forced pass, whatever
the upstream holds, leaves the store identical, so the total order count and
the watermark fields, records_synced and last_record_time included, are
unchanged after the second run (away from the epoch corner cases of the
truthiness checks). -/
theorem second_pass_preserves_store {α : Type}
    (transform : α → Except PyErr OrderData) (maxO1 maxO2 : Option Int)
    (f1 : Bool) (db0 : Db) (now1 now2 : Int)
    (script1 script2 : List (Except PyErr (OrdersPage α))) (n : Int)
    (h1 : (sync_orders_task transform maxO1 f1 db0 now1 script1).result =
      Except.ok n)
    (h2 : now1 - 300 ≠ 0) (h3 : now2 ≠ 0) :
    (sync_orders_task transform maxO2 false
        (sync_orders_task transform maxO1 f1 db0 now1 script1).committed now2
        script2).committed =
      (sync_orders_task transform maxO1 f1 db0 now1 script1).committed ∧
    (sync_orders_task transform maxO2 false
        (sync_orders_task transform maxO1 f1 db0 now1 script1).committed now2
        script2).committed.orders.length =
      (sync_orders_task transform maxO1 f1 db0 now1
        script1).committed.orders.length ∧
    ∃ m, (sync_orders_task transform maxO1 f1 db0 now1
        script1).committed.findMeta "orders" = some m ∧
      (sync_orders_task transform maxO2 false
        (sync_orders_task transform maxO1 f1 db0 now1 script1).committed now2
        script2).committed.findMeta "orders" = some m := by
  obtain ⟨m, hm, hlast⟩ :=
    sync_orders_ok_findMeta transform maxO1 f1 db0 now1 script1 n h1
  have hwin : ordersWindowArgs
      (sync_orders_task transform maxO1 f1 db0 now1 script1).committed false
      now2 = (some (now1 - 300), some now2, false) := by
    simp [ordersWindowArgs, hm, hlast]
  have hraise : getOrdersRaises (some (now1 - 300)) (some now2) = true := by
    simp [getOrdersRaises, optIntTruthy, h2, h3]
  have hrun2 : (sync_orders_task transform maxO2 false
      (sync_orders_task transform maxO1 f1 db0 now1 script1).committed now2
      script2).committed =
      (sync_orders_task transform maxO1 f1 db0 now1 script1).committed := by
    conv_lhs => rw [sync_orders_task]
    rw [hwin]
    rw [ordersLoop_raises transform maxO2 hraise script2 _ 0 none none]
  exact ⟨hrun2, by rw [hrun2], m, hm, by rw [hrun2]; exact hm⟩

/-- Witness for C7 at one concrete pair of passes. -/
theorem second_pass_preserves_store_witness :
    (sync_orders_task (fun od : OrderData => Except.ok od) none false emptyDb
        1000 [Except.ok exPageOne]).result = Except.ok 1 ∧
    ((1000 : Int) - 300 ≠ 0) ∧ ((2000 : Int) ≠ 0) ∧
    (sync_orders_task (fun od : OrderData => Except.ok od) none false
        (sync_orders_task (fun od : OrderData => Except.ok od) none false
          emptyDb 1000 [Except.ok exPageOne]).committed 2000
        ([] : List (Except PyErr (OrdersPage OrderData)))).committed =
      (sync_orders_task (fun od : OrderData => Except.ok od) none false emptyDb
        1000 [Except.ok exPageOne]).committed :=
  ⟨by decide, by decide, by decide,
    (second_pass_preserves_store (fun od : OrderData => Except.ok od) none none
      false emptyDb 1000 2000 [Except.ok exPageOne] [] 1 (by decide)
      (by decide) (by decide)).1⟩

/-- C8 counterexample: a pass whose first response carries embedded status
code 105 inside a transport-level success is not aborted; it returns
success with zero records and writes a fresh watermark row where none
existed. -/
theorem nonzero_code_counterexample :
    exPageErr.code = 105 ∧
    (sync_orders_task (fun od : OrderData => Except.ok od) none false emptyDb
        1000 [Except.ok exPageErr]).result = Except.ok 0 ∧
    emptyDb.findMeta "orders" = none ∧
    (sync_orders_task (fun od : OrderData => Except.ok od) none false emptyDb
        1000 [Except.ok exPageErr]).committed.findMeta "orders" =
      some ⟨"orders", some 1000, some 1000, 0, 1, some 1000, some 1000⟩ :=
  ⟨by decide, by decide, by decide, by decide⟩

/-- C8 amended: wherever a response with a non-zero embedded status code
arrives in the pass, after any fully committed prefix of pages, the pass
stops fetching after that response, surfaces no error, returns the count
synced so far as success, keeps the pages committed before the bad response,
and advances the watermark exactly as on normal termination: last sync time
becomes now and records synced the count so far. -/
theorem nonzero_code_breaks_and_advances {α : Type}
    (transform : α → Except PyErr OrderData) (maxOrders : Option Int)
    (forceFullSync : Bool) (db : Db) (now : Int) (page : OrdersPage α)
    (script1 rest : List (Except PyErr (OrdersPage α)))
    (hw : getOrdersRaises (ordersWindowArgs db forceFullSync now).1
        (ordersWindowArgs db forceFullSync now).2.1 = false)
    (hc : page.code ≠ 0)
    (hgood : loopContinues transform maxOrders script1 0 = true) :
    (sync_orders_task transform maxOrders forceFullSync db now
        (script1 ++ Except.ok page :: rest)).result =
      Except.ok (recordsCount (pagesBeforeError transform script1)) ∧
    (sync_orders_task transform maxOrders forceFullSync db now
        (script1 ++ Except.ok page :: rest)).calls.length =
      script1.length + 1 ∧
    (sync_orders_task transform maxOrders forceFullSync db now
        (script1 ++ Except.ok page :: rest)).committed.orders =
      (pagesBeforeError transform script1).foldl upsertAll db.orders ∧
    (sync_orders_task transform maxOrders forceFullSync db now
        (script1 ++ Except.ok page :: rest)).committed.findMeta "orders" =
      some (updatedMeta db now
        (recordsCount (pagesBeforeError transform script1))
        (mostRecentFrom none (pagesBeforeError transform script1))
        (ordersWindowArgs db forceFullSync now).2.2) ∧
    (updatedMeta db now (recordsCount (pagesBeforeError transform script1))
        (mostRecentFrom none (pagesBeforeError transform script1))
        (ordersWindowArgs db forceFullSync now).2.2).last_sync_time =
      some now ∧
    (updatedMeta db now (recordsCount (pagesBeforeError transform script1))
        (mostRecentFrom none (pagesBeforeError transform script1))
        (ordersWindowArgs db forceFullSync now).2.2).records_synced =
      recordsCount (pagesBeforeError transform script1) := by
  obtain ⟨hres, hord, hlen⟩ := ordersLoop_good_prefix transform maxOrders hw
    page hc script1 rest db 0 none none hgood
  have hres2 : (ordersLoop transform maxOrders
      (ordersWindowArgs db forceFullSync now).1
      (ordersWindowArgs db forceFullSync now).2.1
      (script1 ++ Except.ok page :: rest) db 0 none none).2.1 =
      Except.ok (recordsCount (pagesBeforeError transform script1),
        mostRecentFrom none (pagesBeforeError transform script1)) := by
    rw [hres, zero_add]
  have hfm : (ordersLoop transform maxOrders
      (ordersWindowArgs db forceFullSync now).1
      (ordersWindowArgs db forceFullSync now).2.1
      (script1 ++ Except.ok page :: rest) db 0 none none).1.findMeta
      "orders" = db.findMeta "orders" := by
    unfold Db.findMeta
    rw [(ordersLoop_frame transform maxOrders _ _ _ db 0 none none).1]
  simp only [sync_orders_task]
  rw [hres2]
  refine ⟨rfl, hlen, hord, ?_, updatedMeta_last_sync_time _ _ _ _ _,
    updatedMeta_records_synced _ _ _ _ _⟩
  rw [← updatedMeta_congr _ _ _ _ hfm]
  exact find?_setFirstMeta _ (updatedMeta_sync_type _ _ _ _ _)

/-- Witness for the amended C8 at one concrete pass whose second response
carries the bad code, after one committed page of one order. -/
theorem nonzero_code_breaks_and_advances_witness :
    getOrdersRaises (ordersWindowArgs emptyDb false 1000).1
      (ordersWindowArgs emptyDb false 1000).2.1 = false ∧
    exPageErr.code ≠ 0 ∧
    loopContinues (fun od : OrderData => Except.ok od) none
      [Except.ok exPageMore] 0 = true ∧
    (sync_orders_task (fun od : OrderData => Except.ok od) none false emptyDb
        1000 [Except.ok exPageMore, Except.ok exPageErr]).result =
      Except.ok 1 :=
  ⟨by decide, by decide, by decide,
    (nonzero_code_breaks_and_advances (fun od : OrderData => Except.ok od)
      none false emptyDb 1000 exPageErr [Except.ok exPageMore] []
      (by decide) (by decide) (by decide)).1⟩

/-- C9 counterexample: a two-page products pass issues its second fetch with
the numeric page number two and passes no continuation token on any fetch,
so pagination in that pass is not advanced by a token from the previous
response. -/
theorem numeric_page_offset_counterexample :
    ((sync_products_task exClient (fun pd : ProductData => Except.ok pd)
        emptyDb exProductScript).calls.map (fun pc => pc.1.page_number)) =
      [1, 2] ∧
    ((sync_products_task exClient (fun pd : ProductData => Except.ok pd)
        emptyDb exProductScript).calls.map
      (fun pc => lookupD pc.1.params "page_token")) = [none, none] ∧
    (2 : Nat) ≠ 1 :=
  ⟨by decide, by decide, by decide⟩

/-- C9 amended: the orders pass advances pagination only through the
continuation token of the previous response, while the products pass tracks
a numeric page number handed to each product fetch; the product fetch drops
it, so product requests carry neither a continuation token nor a numeric
page parameter. -/
theorem pagination_token_orders_numeric_products :
    (∀ (α : Type) (transform : α → Except PyErr OrderData)
       (maxOrders : Option Int) (forceFullSync : Bool) (db : Db) (now : Int)
       (script : List (Except PyErr (OrdersPage α))),
       tokenChainedFrom none
         (sync_orders_task transform maxOrders forceFullSync db now
           script).calls) ∧
    (∀ (β : Type) (c : Client) (transform : β → Except PyErr ProductData)
       (db : Db) (script : List (Except PyErr (ProductsPage β))),
       ((sync_products_task c transform db script).calls.map
           (fun pc => pc.1.page_number)) =
         List.range' 1 (sync_products_task c transform db script).calls.length ∧
       ∀ pc ∈ (sync_products_task c transform db script).calls,
         lookupD pc.1.params "page_token" = none ∧
         lookupD pc.1.params "page_number" = none) := by
  constructor
  · intro α transform maxOrders forceFullSync db now script
    have h := ordersLoop_chained transform maxOrders
      (ordersWindowArgs db forceFullSync now).1
      (ordersWindowArgs db forceFullSync now).2.1 script db 0 none none
    simp only [sync_orders_task]
    cases hl : (ordersLoop transform maxOrders
        (ordersWindowArgs db forceFullSync now).1
        (ordersWindowArgs db forceFullSync now).2.1 script db 0 none
        none).2.1 with
    | error e => exact h
    | ok cm => obtain ⟨count, mr⟩ := cm; exact h
  · intro β c transform db script
    exact ⟨productsLoop_pageNumbers c transform script db 0 1,
      productsLoop_params_clean c transform script db 0 1⟩

/-- Witness for the amended C9 at one concrete pair of passes. -/
theorem pagination_token_orders_numeric_products_witness :
    tokenChainedFrom none
      (sync_orders_task (fun od : OrderData => Except.ok od) none false
        emptyDb 5 ([] : List (Except PyErr (OrdersPage OrderData)))).calls ∧
    ∀ pc ∈ (sync_products_task exClient
        (fun pd : ProductData => Except.ok pd) emptyDb
        ([] : List (Except PyErr (ProductsPage ProductData)))).calls,
      lookupD pc.1.params "page_token" = none ∧
      lookupD pc.1.params "page_number" = none :=
  ⟨pagination_token_orders_numeric_products.1 OrderData
      (fun od => Except.ok od) none false emptyDb 5 [],
    (pagination_token_orders_numeric_products.2 ProductData exClient
      (fun pd => Except.ok pd) emptyDb []).2⟩

end TikTokShopTool
